import Mathlib

/-!
Shallow embedding of the warehouse simulation repository
(`src/warehouse.py` and `src/app.py`) together with proofs of the
specification claims.

Conventions:
* Python floats (pallet weights, tolerance) are modelled as rationals `ℚ`.
* Python's `set` of coordinate triples is modelled as `Finset (ℕ × ℕ × ℕ)`.
* Methods that mutate their object are modelled as functions returning the
  updated object(s) alongside the Python return value.
* Wall-clock timestamps, `print`, `time.sleep` and all rendering are pure
  effects on the outside world with no influence on the program state and
  are not modelled.
-/

/-- A storage coordinate triple `(row, column, layer)`. -/
abbrev Pos := ℕ × ℕ × ℕ

/-- Embedding of `class Pallet` from `src/warehouse.py` (lines 6-11):
`pallet_id`, `weight`, `status` (initialised to `"Pending"`) and
`location` (initialised to `None`). -/
structure Pallet where
  pallet_id : String
  weight : ℚ
  status : String := "Pending"
  location : Option Pos := none
deriving DecidableEq, Repr

/-- A movement-log entry as built by `Warehouse.log_step`
(`src/warehouse.py` lines 20-31); the wall-clock `Timestamp` field is not
modelled. -/
structure LogEntry where
  entry_pallet_id : String
  entry_weight : ℚ
  step : String
  entry_status : String
  entry_location : Option Pos
deriving DecidableEq, Repr

/-- Embedding of `class Warehouse` from `src/warehouse.py` (lines 13-18):
a tolerance, a log list, a capacity (hard-coded by `__init__` to
5 rows × 4 columns × 3 layers) and the occupancy set. -/
structure Warehouse where
  tolerance : ℚ
  logs : List LogEntry
  capacity_rows : ℕ
  capacity_columns : ℕ
  capacity_layers : ℕ
  occupied : Finset Pos
deriving DecidableEq

/-- `Warehouse.__init__(self, tolerance=25)` (`src/warehouse.py` lines 14-18):
capacity is hard-coded to `{"rows": 5, "columns": 4, "layers": 3}` and
`occupied` starts empty. -/
def Warehouse.init (tolerance : ℚ := 25) : Warehouse :=
  { tolerance := tolerance
    logs := []
    capacity_rows := 5
    capacity_columns := 4
    capacity_layers := 3
    occupied := ∅ }

/-- `Warehouse.log_step` (`src/warehouse.py` lines 20-31): append one entry
to `self.logs`. -/
def Warehouse.log_step (w : Warehouse) (p : Pallet) (step : String)
    (location : Option Pos := none) : Warehouse :=
  { w with logs := w.logs ++
      [{ entry_pallet_id := p.pallet_id
         entry_weight := p.weight
         step := step
         entry_status := p.status
         entry_location := location }] }

/-- `Warehouse.check_weight` (`src/warehouse.py` lines 33-39): tests
`abs(pallet.weight - 400) <= self.tolerance`, sets `pallet.status` to
`"Accepted"` or `"Rejected - Manual Packing"` accordingly, and returns the
test result.  The method reads but never assigns any field of `self`, so
only the updated pallet is returned alongside the boolean. -/
def Warehouse.check_weight (w : Warehouse) (p : Pallet) : Bool × Pallet :=
  if |p.weight - 400| ≤ w.tolerance then
    (true, { p with status := "Accepted" })
  else
    (false, { p with status := "Rejected - Manual Packing" })

/-- The coordinate sequence visited by the three nested `for` loops of
`Warehouse.assign_location` (`src/warehouse.py` lines 42-44):
`r in range(1, rows+1)` outermost, then `c in range(1, columns+1)`,
then `l in range(1, layers+1)` innermost. -/
def scanList (rows cols layers : ℕ) : List Pos :=
  (List.range' 1 rows).flatMap fun r =>
    (List.range' 1 cols).flatMap fun c =>
      (List.range' 1 layers).map fun l => (r, c, l)

/-- `Warehouse.assign_location` (`src/warehouse.py` lines 41-50): walk the
nested loops and return at the first `pos` not in `self.occupied`, after
adding it to `self.occupied` and storing it in `pallet.location`; fall
through to `None` when every position is occupied.  The early `return`
from the nested loops is the first scan-order position satisfying the
test, i.e. `List.find?` over `scanList`. -/
def Warehouse.assign_location (w : Warehouse) (p : Pallet) :
    Option Pos × Warehouse × Pallet :=
  match (scanList w.capacity_rows w.capacity_columns w.capacity_layers).find?
      (fun pos => decide (pos ∉ w.occupied)) with
  | some pos =>
      (some pos, { w with occupied := insert pos w.occupied },
        { p with location := some pos })
  | none => (none, w, p)

/-- `Warehouse.process_pallet` (`src/warehouse.py` lines 52-75), with the
`time.sleep` pacing dropped: log `"Inbound"`, gate on `check_weight`, and
either walk the accepted pallet through the logged stages to
`assign_location` or log `"Manual Packing"`. -/
def Warehouse.process_pallet (w : Warehouse) (p : Pallet) :
    Warehouse × Pallet :=
  let w₁ := w.log_step p "Inbound"
  match w₁.check_weight p with
  | (true, p₁) =>
      let w₂ := w₁.log_step p₁ "Weighing"
      let w₃ := w₂.log_step p₁ "RGV Loading"
      let w₄ := w₃.log_step p₁ "Conveyor Transfer"
      let w₅ := w₄.log_step p₁ "ASRS Lift"
      match w₅.assign_location p₁ with
      | (some loc, w₆, p₂) =>
          let p₃ := { p₂ with status := "Stored" }
          (w₆.log_step p₃ "Stored in ASRS" (some loc), p₃)
      | (none, w₆, p₂) =>
          let p₃ := { p₂ with status := "Rejected - Warehouse Full" }
          (w₆.log_step p₃ "Rejected" none, p₃)
  | (false, p₁) =>
      (w₁.log_step p₁ "Manual Packing", p₁)

/-- A fixed pallet used when iterating `assign_location`; the allocator's
returned position and occupancy update do not depend on the pallet
argument. -/
def pallet0 : Pallet := { pallet_id := "P1", weight := 400 }

/-- Results of `n` successive `assign_location` calls (the pallet argument
is irrelevant to the allocator's result and occupancy). -/
def assignRun : ℕ → Warehouse → List (Option Pos) × Warehouse
  | 0, w => ([], w)
  | n + 1, w =>
      let (res, w₁, _) := w.assign_location pallet0
      let (rest, w₂) := assignRun n w₁
      (res :: rest, w₂)

/-- The warehouse reached from a fresh `Warehouse()` by `n` calls to
`assign_location`. -/
def assignIter : ℕ → Warehouse
  | 0 => Warehouse.init 25
  | n + 1 => ((assignIter n).assign_location pallet0).2.1

/-- Warehouse states reachable from a freshly constructed `Warehouse`
through the methods that return an updated warehouse (`check_weight`
assigns no field of `self` and is covered by the identity). -/
inductive Reachable : Warehouse → Prop
  | init (tol : ℚ) : Reachable (Warehouse.init tol)
  | log_step (w : Warehouse) (p : Pallet) (step : String) (loc : Option Pos)
      (h : Reachable w) : Reachable (w.log_step p step loc)
  | assign_location (w : Warehouse) (p : Pallet) (h : Reachable w) :
      Reachable ((w.assign_location p).2.1)
  | process_pallet (w : Warehouse) (p : Pallet) (h : Reachable w) :
      Reachable ((w.process_pallet p).1)

/-! ### The scan order asserted by the specification

These two definitions follow the words of the spec/claim ("scans layer,
then row, then column"; minimum free coordinate in lexicographic
`(layer, row, column)` order), not the source, and exist to be compared
with `assign_location`. -/

/-- Layer-major scan order as the claim words it: layer outermost, then
row, then column. -/
def scanListLayerMajor (rows cols layers : ℕ) : List Pos :=
  (List.range' 1 layers).flatMap fun l =>
    (List.range' 1 rows).flatMap fun r =>
      (List.range' 1 cols).map fun c => (r, c, l)

/-- First free coordinate in the claimed layer-major order. -/
def firstFreeLayerMajor (w : Warehouse) : Option Pos :=
  (scanListLayerMajor w.capacity_rows w.capacity_columns w.capacity_layers).find?
    (fun pos => decide (pos ∉ w.occupied))

/-! ### The driver (`src/app.py`)

`app.py` is the Streamlit driver.  Its "Run Simulation" block
(lines 173-264) advances every pallet one sub-step per tick.  Rendering
(`draw_grid`, placeholders), `time.sleep` pacing and the KPI dashboard do
not touch the simulation state and are not modelled; `insert_movement_log`
appends one row to the append-only `pallet_movements` table and is
modelled as an emitted `MovementRecord`. -/

/-- Visual slot counts, `src/app.py` lines 14-15. -/
def CONVEYOR_SLOTS : ℕ := 3

/-- Visual slot counts, `src/app.py` lines 14-15. -/
def RGV_SLOTS : ℕ := 3

/-- Warehouse dimensions used by the driver, `src/app.py` line 80. -/
def ROWS : ℕ := 3

/-- Warehouse dimensions used by the driver, `src/app.py` line 80. -/
def COLS : ℕ := 3

/-- Warehouse dimensions used by the driver, `src/app.py` line 80. -/
def LAYERS : ℕ := 2

/-- Weight tolerance used by the driver, `src/app.py` line 81. -/
def TOLERANCE : ℚ := 25

/-- Modelled from the spec: the `Pallet` variant constructed by the driver
as `Pallet(pallet_id=..., weight=..., rfid=...)` (`src/app.py` line 97).
The spec's data model gives it `pallet_id`, `weight` and a unique `rfid`;
the class itself belongs to the second, divergent implementation that is
not under `src/`. -/
structure AppPallet where
  pallet_id : String
  weight : ℚ
  rfid : String
deriving DecidableEq, Repr

/-- Modelled from the spec: the `Warehouse` variant imported by the driver
is not under `src/` — the spec's design notes flag "two divergent
implementations of `Warehouse`/`Pallet` ... with different capacities,
constructors, and coordinate bases (0- vs 1-based)".  The driver
constructs it as `Warehouse(ROWS, COLS, LAYERS, TOLERANCE)`
(`src/app.py` line 83), reads `capacity["rows"|"columns"|"layers"]`, and
calls `assign_location()` with no pallet argument whose result the
driver's comment documents as a 0-based `(r, c, l)` triple
(`src/app.py` line 241). -/
structure AppWarehouse where
  rows : ℕ
  columns : ℕ
  layers : ℕ
  tolerance : ℚ
  occupied : Finset Pos
deriving DecidableEq

/-- Modelled from the spec: constructor of the driver's warehouse variant,
capacity and tolerance taken as arguments, empty occupancy. -/
def AppWarehouse.init (rows cols layers : ℕ) (tol : ℚ) : AppWarehouse :=
  { rows := rows, columns := cols, layers := layers, tolerance := tol,
    occupied := ∅ }

/-- Modelled from the spec: the 0-based scan order of the driver's
allocator, following the spec's allocator contract §4.1 ("Scans layer,
then row, then column in fixed nested order"). -/
def scanList0 (rows cols layers : ℕ) : List Pos :=
  (List.range layers).flatMap fun l =>
    (List.range rows).flatMap fun r =>
      (List.range cols).map fun c => (r, c, l)

/-- Modelled from the spec: `assign_location()` of the driver's warehouse
variant — first free coordinate in the fixed scan order, marked occupied;
`None` when no free coordinate exists (§4.1). -/
def AppWarehouse.assign_location (w : AppWarehouse) :
    Option Pos × AppWarehouse :=
  match (scanList0 w.rows w.columns w.layers).find?
      (fun pos => decide (pos ∉ w.occupied)) with
  | some pos => (some pos, { w with occupied := insert pos w.occupied })
  | none => (none, w)

/-- The driver's per-pallet stage, the `pos["stage"]` strings of
`src/app.py`. -/
inductive Stage
  | inbound
  | conveyor
  | rgv
  | asrs
  | manual
deriving DecidableEq, Repr

/-- One entry of the driver's `pallet_positions` dict
(`src/app.py` lines 184-193). -/
structure PalletPos where
  stage : Stage
  index : ℕ
  row : Option ℕ
  col : Option ℕ
  layer : Option ℕ
  weight : ℚ
  rfid : String
deriving DecidableEq, Repr

/-- One row of the `pallet_movements` table as inserted by
`insert_movement_log` (`src/app.py` lines 45-53); the autoincrement id and
wall-clock timestamp are not modelled. -/
structure MovementRecord where
  pallet_id : String
  rfid : String
  weight : ℚ
  stage : String
  location : String := ""
deriving DecidableEq, Repr

/-- The human-readable 1-based location text of the `"Stored"` log row,
`src/app.py` line 253: `f"Row {r+1}, Col {c+1}, Layer {l+1}"`. -/
def storedLocationText (r c l : ℕ) : String :=
  "Row " ++ toString (r + 1) ++ ", Col " ++ toString (c + 1) ++
    ", Layer " ++ toString (l + 1)

/-- One iteration of the driver's per-pallet body
(`src/app.py` lines 198-257): returns the updated `pos` entry, the updated
warehouse and the movement rows inserted during this sub-step.  Terminal
pallets (`asrs`, `manual`) are skipped by the `continue` on line 199 and
are returned unchanged. -/
def stepPallet (tol : ℚ) (w : AppWarehouse) (pid : String)
    (pos : PalletPos) : PalletPos × AppWarehouse × List MovementRecord :=
  match pos.stage with
  | .inbound =>
      if |pos.weight - 400| > tol then
        ({ pos with stage := .manual }, w,
          [{ pallet_id := pid, rfid := pos.rfid, weight := pos.weight,
             stage := "Manual Packing" }])
      else
        ({ pos with stage := .conveyor, index := 0 }, w,
          [{ pallet_id := pid, rfid := pos.rfid, weight := pos.weight,
             stage := "Inbound OK" }])
  | .conveyor =>
      if pos.index < CONVEYOR_SLOTS - 1 then
        ({ pos with index := pos.index + 1 }, w, [])
      else
        ({ pos with stage := .rgv, index := 0 }, w,
          [{ pallet_id := pid, rfid := pos.rfid, weight := pos.weight,
             stage := "Conveyor OK" }])
  | .rgv =>
      if pos.index < RGV_SLOTS - 1 then
        ({ pos with index := pos.index + 1 }, w, [])
      else
        match w.assign_location with
        | (none, w₁) =>
            ({ pos with stage := .manual }, w₁,
              [{ pallet_id := pid, rfid := pos.rfid, weight := pos.weight,
                 stage := "Manual (No Space)" }])
        | (some (r, c, l), w₁) =>
            ({ pos with
                stage := .asrs
                row := some r
                col := some c
                layer := some l }, w₁,
              [{ pallet_id := pid, rfid := pos.rfid, weight := pos.weight,
                 stage := "Stored",
                 location := storedLocationText r c l }])
  | .asrs => (pos, w, [])
  | .manual => (pos, w, [])

/-- State of one "Run Simulation" run: the `pallet_positions` dict (an
insertion-ordered association list in Python 3), the warehouse, and the
rows inserted into `pallet_movements` so far (the table starts empty for
the purposes of per-run claims). -/
structure SimState where
  pallet_positions : List (String × PalletPos)
  warehouse : AppWarehouse
  movements : List MovementRecord
deriving DecidableEq

/-- The `for pallet_id, pos in list(pallet_positions.items())` walk of one
tick (`src/app.py` lines 198-257): steps every entry once, in order,
threading the warehouse and collecting inserted rows. -/
def tickAux (tol : ℚ) : AppWarehouse → List (String × PalletPos) →
    List (String × PalletPos) × AppWarehouse × List MovementRecord
  | w, [] => ([], w, [])
  | w, (pid, pos) :: rest =>
      let (pos₁, w₁, recs₁) := stepPallet tol w pid pos
      let (rest₁, w₂, recs₂) := tickAux tol w₁ rest
      ((pid, pos₁) :: rest₁, w₂, recs₁ ++ recs₂)

/-- One tick of the driver loop. -/
def tick (tol : ℚ) (s : SimState) : SimState :=
  let (ps, w₁, recs) := tickAux tol s.warehouse s.pallet_positions
  { pallet_positions := ps, warehouse := w₁,
    movements := s.movements ++ recs }

/-- The driver's `finished` test: every pallet is terminal
(`src/app.py` line 199 together with the `finished` flag). -/
def allTerminal (s : SimState) : Bool :=
  s.pallet_positions.all fun e =>
    decide (e.2.stage = Stage.asrs ∨ e.2.stage = Stage.manual)

/-- The `while not finished` loop (`src/app.py` lines 196-262), with an
explicit fuel bound: stop when every pallet is terminal, otherwise tick
and repeat. -/
def runSim (tol : ℚ) : ℕ → SimState → SimState
  | 0, s => s
  | n + 1, s => if allTerminal s then s else runSim tol n (tick tol s)

/-- The initial `pallet_positions` entry of a pallet
(`src/app.py` lines 184-193). -/
def initPos (p : AppPallet) : PalletPos :=
  { stage := .inbound, index := 0, row := none, col := none, layer := none,
    weight := p.weight, rfid := p.rfid }

/-- The driver state at the top of the `while` loop
(`src/app.py` lines 180-195). -/
def initState (pallets : List AppPallet) (w : AppWarehouse) : SimState :=
  { pallet_positions := pallets.map fun p => (p.pallet_id, initPos p)
    warehouse := w
    movements := [] }

/-- Sub-steps remaining until a pallet's stage is terminal: one inbound
gate step, then the conveyor counter walk, then the RGV counter walk. -/
def palletMeasure (pos : PalletPos) : ℕ :=
  match pos.stage with
  | .inbound => 1 + CONVEYOR_SLOTS + RGV_SLOTS
  | .conveyor => (CONVEYOR_SLOTS - pos.index) + RGV_SLOTS
  | .rgv => RGV_SLOTS - pos.index
  | .asrs => 0
  | .manual => 0

/-- The driver keeps `index` within the visual slot range. -/
def idxOk (pos : PalletPos) : Prop :=
  (pos.stage = Stage.conveyor → pos.index ≤ CONVEYOR_SLOTS - 1) ∧
  (pos.stage = Stage.rgv → pos.index ≤ RGV_SLOTS - 1)

/-! ### Call-signature compatibility (claim C9)

Positional-arity model of the two calls the driver makes into the
imported `warehouse.py`. -/

/-- Fewest positional arguments (beyond `self`) accepted by
`Warehouse.__init__(self, tolerance=25)` (`src/warehouse.py` line 14):
`tolerance` has a default. -/
def warehouseInitMinArgs : ℕ := 0

/-- Most positional arguments (beyond `self`) accepted by
`Warehouse.__init__(self, tolerance=25)` (`src/warehouse.py` line 14). -/
def warehouseInitMaxArgs : ℕ := 1

/-- Fewest positional arguments (beyond `self`) accepted by
`Warehouse.assign_location(self, pallet)` (`src/warehouse.py` line 41). -/
def assignLocationMinArgs : ℕ := 1

/-- Most positional arguments (beyond `self`) accepted by
`Warehouse.assign_location(self, pallet)` (`src/warehouse.py` line 41). -/
def assignLocationMaxArgs : ℕ := 1

/-- Positional arguments passed by
`Warehouse(ROWS, COLS, LAYERS, TOLERANCE)` (`src/app.py` line 83). -/
def appWarehouseCallArgs : ℕ := 4

/-- Positional arguments passed by `warehouse.assign_location()`
(`src/app.py` line 241). -/
def appAssignLocationCallArgs : ℕ := 0

/-- Python's positional-arity check: a call with `n` positional arguments
binds iff the callee accepts between its minimum and maximum count;
otherwise the call raises `TypeError`. -/
def callBinds (minArgs maxArgs n : ℕ) : Prop :=
  minArgs ≤ n ∧ n ≤ maxArgs

instance (minArgs maxArgs n : ℕ) :
    Decidable (callBinds minArgs maxArgs n) := by
  unfold callBinds; infer_instance

/-! ### Order-theoretic facts about the scan sequence -/

/-- Strict lexicographic order on coordinate triples, comparing row first,
then column, then layer — the significance order of the nested loops in
`assign_location`. -/
def lexLt (a b : Pos) : Prop :=
  a.1 < b.1 ∨ (a.1 = b.1 ∧ (a.2.1 < b.2.1 ∨ (a.2.1 = b.2.1 ∧ a.2.2 < b.2.2)))

/-- Reflexive closure of `lexLt`. -/
def lexLe (a b : Pos) : Prop := lexLt a b ∨ a = b

instance : DecidablePred (fun ab : Pos × Pos => lexLt ab.1 ab.2) := by
  unfold lexLt; infer_instance

instance (a b : Pos) : Decidable (lexLt a b) := by
  unfold lexLt; infer_instance

instance (a b : Pos) : Decidable (lexLe a b) := by
  unfold lexLe; infer_instance

/-- The position `pos` lies within the 1-based capacity bounds of
warehouse `w`. -/
def posInBounds (w : Warehouse) (pos : Pos) : Prop :=
  1 ≤ pos.1 ∧ pos.1 ≤ w.capacity_rows ∧
  1 ≤ pos.2.1 ∧ pos.2.1 ≤ w.capacity_columns ∧
  1 ≤ pos.2.2 ∧ pos.2.2 ≤ w.capacity_layers

instance (w : Warehouse) (pos : Pos) : Decidable (posInBounds w pos) := by
  unfold posInBounds; infer_instance

lemma mem_scanList {rows cols layers : ℕ} {pos : Pos} :
    pos ∈ scanList rows cols layers ↔
      (1 ≤ pos.1 ∧ pos.1 ≤ rows) ∧ (1 ≤ pos.2.1 ∧ pos.2.1 ≤ cols) ∧
      (1 ≤ pos.2.2 ∧ pos.2.2 ≤ layers) := by
  obtain ⟨r, c, l⟩ := pos
  simp only [scanList, List.mem_flatMap, List.mem_map, List.mem_range'_1]
  constructor
  · rintro ⟨r', hr, c', hc, l', hl, h⟩
    obtain ⟨rfl, rfl, rfl⟩ := Prod.mk.injEq .. ▸ h
    simp only [Prod.mk.injEq] at h
    omega
  · rintro ⟨⟨hr1, hr2⟩, ⟨hc1, hc2⟩, ⟨hl1, hl2⟩⟩
    exact ⟨r, by omega, c, by omega, l, by omega, rfl⟩

lemma scanList_pairwise (rows cols layers : ℕ) :
    (scanList rows cols layers).Pairwise lexLt := by
  unfold scanList
  rw [List.pairwise_flatMap]
  refine ⟨fun r hr => ?_, ?_⟩
  · rw [List.pairwise_flatMap]
    refine ⟨fun c hc => ?_, ?_⟩
    · exact (List.pairwise_lt_range' 1 layers).map _
        (fun a b hab => Or.inr ⟨rfl, Or.inr ⟨rfl, hab⟩⟩)
    · refine (List.pairwise_lt_range' 1 cols).imp ?_
      rintro c₁ c₂ h x hx y hy
      simp only [List.mem_map] at hx hy
      obtain ⟨l₁, -, rfl⟩ := hx
      obtain ⟨l₂, -, rfl⟩ := hy
      exact Or.inr ⟨rfl, Or.inl h⟩
  · refine (List.pairwise_lt_range' 1 rows).imp ?_
    rintro r₁ r₂ h x hx y hy
    simp only [List.mem_flatMap, List.mem_map] at hx hy
    obtain ⟨c₁, -, l₁, -, rfl⟩ := hx
    obtain ⟨c₂, -, l₂, -, rfl⟩ := hy
    exact Or.inl h

lemma lexLt_irrefl (a : Pos) : ¬ lexLt a a := by
  unfold lexLt; omega

lemma scanList_nodup (rows cols layers : ℕ) :
    (scanList rows cols layers).Nodup :=
  (scanList_pairwise rows cols layers).imp
    (fun h => by rintro rfl; exact lexLt_irrefl _ h)

/-- On a list strictly sorted by `lexLt`, `find?` returns a minimum among
the elements satisfying the predicate. -/
lemma find?_lexLe_of_pairwise {p : Pos → Bool} :
    ∀ {l : List Pos}, l.Pairwise lexLt → ∀ {x : Pos}, l.find? p = some x →
      ∀ y ∈ l, p y → lexLe x y := by
  intro l
  induction l with
  | nil => intro _ x hx; simp at hx
  | cons a t ih =>
    intro hpair x hx y hy hpy
    rw [List.pairwise_cons] at hpair
    by_cases hpa : p a
    · rw [List.find?_cons_of_pos _ hpa] at hx
      injection hx with hx
      subst hx
      rcases List.mem_cons.mp hy with rfl | hyt
      · exact Or.inr rfl
      · exact Or.inl (hpair.1 y hyt)
    · rw [List.find?_cons_of_neg _ hpa] at hx
      rcases List.mem_cons.mp hy with rfl | hyt
      · exact absurd hpy hpa
      · exact ih hpair.2 hx y hyt hpy

/-! ## Claim C2 — the weight gate -/

/-- C2: the weight gate accepts a weight `x` iff `|x - 400| ≤ tolerance`;
for a nonnegative tolerance the boundary weights `400 ± tol` are accepted
and `400 ± tol ± 0.1` are rejected — both for `Warehouse.check_weight` and
for the driver's inline inbound gate (`src/app.py` line 210), which lets a
pallet proceed to the conveyor exactly under the same condition. -/
theorem weight_gate_accepts_iff :
    (∀ (w : Warehouse) (p : Pallet),
      ((w.check_weight p).1 = true ↔ |p.weight - 400| ≤ w.tolerance)) ∧
    (∀ (w : Warehouse) (p : Pallet), 0 ≤ w.tolerance →
      ((w.check_weight { p with weight := 400 + w.tolerance }).1 = true ∧
       (w.check_weight { p with weight := 400 - w.tolerance }).1 = true ∧
       (w.check_weight
          { p with weight := 400 + w.tolerance + 1/10 }).1 = false ∧
       (w.check_weight
          { p with weight := 400 - w.tolerance - 1/10 }).1 = false)) ∧
    (∀ (tol : ℚ) (aw : AppWarehouse) (pid : String) (pos : PalletPos),
      pos.stage = Stage.inbound →
      ((stepPallet tol aw pid pos).1.stage = Stage.conveyor ↔
        |pos.weight - 400| ≤ tol)) := by
  have hiff : ∀ (w : Warehouse) (p : Pallet),
      ((w.check_weight p).1 = true ↔ |p.weight - 400| ≤ w.tolerance) := by
    intro w p
    unfold Warehouse.check_weight
    split_ifs with h <;> simp [h]
  refine ⟨hiff, fun w p ht => ?_, fun tol aw pid pos h => ?_⟩
  · have habs : |w.tolerance| = w.tolerance := abs_of_nonneg ht
    refine ⟨(hiff w _).mpr ?_, (hiff w _).mpr ?_, ?_, ?_⟩
    · simpa using le_of_eq habs
    · simpa using le_of_eq ((abs_neg w.tolerance).trans habs)
    · rw [Bool.eq_false_iff]
      intro hc
      have := (hiff w _).mp hc
      rw [show (400 : ℚ) + w.tolerance + 1/10 - 400 =
        w.tolerance + 1/10 by ring] at this
      rw [abs_of_nonneg (by linarith)] at this
      linarith
    · rw [Bool.eq_false_iff]
      intro hc
      have := (hiff w _).mp hc
      rw [show (400 : ℚ) - w.tolerance - 1/10 - 400 =
        -(w.tolerance + 1/10) by ring, abs_neg] at this
      rw [abs_of_nonneg (by linarith)] at this
      linarith
  · obtain ⟨st, idx, r, c, l, wt, rf⟩ := pos
    simp only at h
    subst h
    simp only [stepPallet]
    split_ifs with hgt
    · constructor
      · intro hc
        simp at hc
      · intro hle
        exact absurd hgt (not_lt.mpr hle)
    · constructor
      · intro _
        exact not_lt.mp hgt
      · intro _
        rfl

/-- C2 witness: tolerance 25 is nonnegative, and at tolerance 25 the
boundary weights 425 and 375 are accepted while 425.1 and 374.9 are
rejected; a concrete inbound pallet of weight 400 proceeds to the
conveyor. -/
theorem weight_gate_accepts_iff_witness :
    (0 : ℚ) ≤ (Warehouse.init 25).tolerance ∧
    (((Warehouse.init 25).check_weight
        { pallet0 with weight := 400 + (Warehouse.init 25).tolerance }).1 =
          true ∧
      ((Warehouse.init 25).check_weight
        { pallet0 with weight := 400 - (Warehouse.init 25).tolerance }).1 =
          true ∧
      ((Warehouse.init 25).check_weight
        { pallet0 with
            weight := 400 + (Warehouse.init 25).tolerance + 1/10 }).1 =
          false ∧
      ((Warehouse.init 25).check_weight
        { pallet0 with
            weight := 400 - (Warehouse.init 25).tolerance - 1/10 }).1 =
          false) ∧
    ((stepPallet 25 (AppWarehouse.init 3 3 2 25) "P1"
        (initPos ⟨"P1", 400, "RFID-1"⟩)).1.stage = Stage.conveyor ↔
      |(initPos ⟨"P1", 400, "RFID-1"⟩).weight - 400| ≤ 25) :=
  ⟨by decide,
   weight_gate_accepts_iff.2.1 (Warehouse.init 25) pallet0 (by decide),
   weight_gate_accepts_iff.2.2 25 (AppWarehouse.init 3 3 2 25) "P1"
     (initPos ⟨"P1", 400, "RFID-1"⟩) rfl⟩

/-! ## Claim C5 — the gate is not side-effect free -/

/-- C5 counterexample: `check_weight` does not leave the pallet unchanged —
at weight 450 and tolerance 25 it overwrites the pallet's `status` field
with `"Rejected - Manual Packing"`, so the claim that the gate leaves the
pallet (including its status field) unchanged is false. -/
theorem check_weight_not_pure :
    ((Warehouse.init 25).check_weight { pallet0 with weight := 450 }).2 ≠
      { pallet0 with weight := 450 } := by
  unfold Warehouse.check_weight
  rw [if_neg (by norm_num [Warehouse.init])]
  intro hcontra
  exact absurd (congrArg Pallet.status hcontra) (by decide)

/-- C5 (amended): the gate's boolean result depends only on the weight and
the tolerance and `check_weight` assigns no field of the warehouse, but it
does mutate the pallet: the returned pallet is the argument with `status`
overwritten to `"Accepted"` on pass and `"Rejected - Manual Packing"` on
fail. -/
theorem check_weight_result_and_mutation :
    (∀ (w : Warehouse) (p : Pallet),
      (w.check_weight p).1 = decide (|p.weight - 400| ≤ w.tolerance) ∧
      (w.check_weight p).2 =
        { p with status :=
            if |p.weight - 400| ≤ w.tolerance then "Accepted"
            else "Rejected - Manual Packing" }) ∧
    (∀ (w w' : Warehouse) (p p' : Pallet), p.weight = p'.weight →
      w.tolerance = w'.tolerance →
      (w.check_weight p).1 = (w'.check_weight p').1) := by
  have hkey : ∀ (w : Warehouse) (p : Pallet),
      (w.check_weight p).1 = decide (|p.weight - 400| ≤ w.tolerance) := by
    intro w p
    unfold Warehouse.check_weight
    split_ifs with h <;> simp [h]
  refine ⟨fun w p => ⟨hkey w p, ?_⟩, fun w w' p p' hw ht => ?_⟩
  · unfold Warehouse.check_weight
    split_ifs with h <;> rfl
  · rw [hkey, hkey, hw, ht]

/-- C5 witness: two pallets with equal weight 410 but different ids get the
same gate result under tolerance 25. -/
theorem check_weight_result_and_mutation_witness :
    ({ pallet0 with weight := 410 } : Pallet).weight =
        ({ pallet_id := "P2", weight := 410 } : Pallet).weight ∧
      ((Warehouse.init 25).check_weight { pallet0 with weight := 410 }).1 =
        ((Warehouse.init 25).check_weight
          { pallet_id := "P2", weight := 410 }).1 :=
  ⟨rfl, check_weight_result_and_mutation.2 (Warehouse.init 25)
    (Warehouse.init 25) { pallet0 with weight := 410 }
    { pallet_id := "P2", weight := 410 } rfl rfl⟩

/-! ## Claim C9 — driver/implementation call-signature mismatch -/

/-- C9 counterexample: it is not the case that both driver calls bind —
the construction `Warehouse(ROWS, COLS, LAYERS, TOLERANCE)` passes 4
positional arguments where `Warehouse.__init__(self, tolerance=25)`
accepts at most 1, so the claim that every run of the driver makes these
calls succeed without a type/arity error is false. -/
theorem driver_warehouse_calls_do_not_bind :
    ¬ (callBinds warehouseInitMinArgs warehouseInitMaxArgs
        appWarehouseCallArgs ∧
      callBinds assignLocationMinArgs assignLocationMaxArgs
        appAssignLocationCallArgs) := by decide

/-- C9 (amended): the driver's use of the `Warehouse` interface does not
match the imported implementation — the construction passes 4 positional
arguments where at most 1 is accepted, and `assign_location()` passes 0
where exactly 1 is required, so both calls fail Python's arity check
(raising `TypeError`) on every run of the driver. -/
theorem driver_warehouse_call_arity_mismatch :
    ¬ callBinds warehouseInitMinArgs warehouseInitMaxArgs
        appWarehouseCallArgs ∧
    ¬ callBinds assignLocationMinArgs assignLocationMaxArgs
        appAssignLocationCallArgs := by decide

/-! ## Claim C1 — allocator scan order -/

/-- C1 counterexample: with exactly `(1,1,1)` occupied, `assign_location`
returns `(1,1,2)` — the next layer at the same row and column — while the
minimum free coordinate in the claimed lexicographic `(layer, row,
column)` order is `(1,2,1)`; the scan is therefore not layer-major and the
claimed equivalence fails at this occupancy state. -/
theorem assign_location_not_layer_major :
    (({ Warehouse.init 25 with
        occupied := {(1, 1, 1)} }).assign_location pallet0).1 =
      some (1, 1, 2) ∧
    firstFreeLayerMajor
        { Warehouse.init 25 with occupied := {(1, 1, 1)} } =
      some (1, 2, 1) ∧
    (({ Warehouse.init 25 with
        occupied := {(1, 1, 1)} }).assign_location pallet0).1 ≠
      firstFreeLayerMajor
        { Warehouse.init 25 with occupied := {(1, 1, 1)} } := by decide

/-- C1 (amended): `assign_location` scans the coordinates in fixed nested
order row-major — row outermost, then column, then layer innermost — and
returns the first coordinate not in `occupied`; equivalently, for every
occupancy state, any returned coordinate is within bounds, free, and the
minimum free coordinate under the lexicographic order
`(row, column, layer)`. -/
theorem assign_location_row_major_first_fit (w : Warehouse) (p : Pallet)
    (pos : Pos) (h : (w.assign_location p).1 = some pos) :
    posInBounds w pos ∧ pos ∉ w.occupied ∧
      ∀ q, posInBounds w q → q ∉ w.occupied → lexLe pos q := by
  unfold Warehouse.assign_location at h
  cases hf : (scanList w.capacity_rows w.capacity_columns
      w.capacity_layers).find? (fun pos => decide (pos ∉ w.occupied)) with
  | none => rw [hf] at h; exact absurd h (by simp)
  | some q =>
      rw [hf] at h
      simp only [Option.some.injEq] at h
      subst h
      refine ⟨?_, ?_, ?_⟩
      · obtain ⟨⟨h1, h2⟩, ⟨h3, h4⟩, h5, h6⟩ :=
          mem_scanList.mp (List.mem_of_find?_eq_some hf)
        exact ⟨h1, h2, h3, h4, h5, h6⟩
      · have hq := List.find?_some hf
        simp only [decide_eq_true_eq] at hq
        exact hq
      · intro q hq hfree
        obtain ⟨h1, h2, h3, h4, h5, h6⟩ := hq
        exact find?_lexLe_of_pairwise
          (scanList_pairwise w.capacity_rows w.capacity_columns
            w.capacity_layers) hf q
          (mem_scanList.mpr ⟨⟨h1, h2⟩, ⟨h3, h4⟩, h5, h6⟩)
          (decide_eq_true hfree)

/-- C1 witness: on the fresh warehouse the allocator returns `(1,1,1)`,
which is in bounds, free, and lexicographically least among the free
in-bounds coordinates. -/
theorem assign_location_row_major_first_fit_witness :
    ((Warehouse.init 25).assign_location pallet0).1 = some (1, 1, 1) ∧
    (posInBounds (Warehouse.init 25) (1, 1, 1) ∧
      (1, 1, 1) ∉ (Warehouse.init 25).occupied ∧
      ∀ q, posInBounds (Warehouse.init 25) q →
        q ∉ (Warehouse.init 25).occupied → lexLe (1, 1, 1) q) :=
  ⟨by decide, assign_location_row_major_first_fit (Warehouse.init 25)
    pallet0 (1, 1, 1) (by decide)⟩

/-! ## Claim C10 — returned coordinates are 1-based, fresh, and the
driver logs them with a further `+1` offset -/

/-- C10: every coordinate `(r, c, l)` returned by `assign_location` is
1-based and within capacity bounds, was not in `occupied` before the call
and is in `occupied` after it; and the driver's `"Stored"` row renders
each component of the triple it receives plus one
(`f"Row {r+1}, Col {c+1}, Layer {l+1}"`, `src/app.py` line 253), so the
log text is one base higher than the stored triple. -/
theorem assign_location_one_based_and_log_offset :
    (∀ (w : Warehouse) (p : Pallet) (pos : Pos),
      (w.assign_location p).1 = some pos →
      posInBounds w pos ∧ pos ∉ w.occupied ∧
        pos ∈ ((w.assign_location p).2.1).occupied) ∧
    (∀ (tol : ℚ) (aw : AppWarehouse) (pid : String) (ppos : PalletPos)
      (r c l : ℕ), ppos.stage = Stage.rgv → ¬ ppos.index < RGV_SLOTS - 1 →
      (aw.assign_location).1 = some (r, c, l) →
      (stepPallet tol aw pid ppos).2.2 =
        [{ pallet_id := pid, rfid := ppos.rfid, weight := ppos.weight,
           stage := "Stored",
           location := "Row " ++ toString (r + 1) ++ ", Col " ++
             toString (c + 1) ++ ", Layer " ++ toString (l + 1) }]) := by
  constructor
  · intro w p pos h
    unfold Warehouse.assign_location at h ⊢
    cases hf : (scanList w.capacity_rows w.capacity_columns
        w.capacity_layers).find? (fun pos => decide (pos ∉ w.occupied)) with
    | none => rw [hf] at h; exact absurd h (by simp)
    | some q =>
        rw [hf] at h
        simp only [Option.some.injEq] at h
        subst h
        have hq := List.find?_some hf
        simp only [decide_eq_true_eq] at hq
        refine ⟨?_, hq, ?_⟩
        · obtain ⟨⟨h1, h2⟩, ⟨h3, h4⟩, h5, h6⟩ :=
            mem_scanList.mp (List.mem_of_find?_eq_some hf)
          exact ⟨h1, h2, h3, h4, h5, h6⟩
        · exact Finset.mem_insert_self _ _
  · intro tol aw pid ppos r c l hst hidx h
    obtain ⟨st, idx, r₀, c₀, l₀, wt, rf⟩ := ppos
    simp only at hst hidx ⊢
    subst hst
    have hassign : aw.assign_location =
        (some (r, c, l), { aw with occupied := insert (r, c, l) aw.occupied }) := by
      unfold AppWarehouse.assign_location at h ⊢
      cases hf : (scanList0 aw.rows aw.columns aw.layers).find?
          (fun pos => decide (pos ∉ aw.occupied)) with
      | none => rw [hf] at h; exact absurd h (by simp)
      | some q =>
          rw [hf] at h
          simp only [Option.some.injEq] at h
          subst h
          rfl
    simp only [stepPallet, if_neg hidx, hassign, storedLocationText]

/-! ## Claim C3 — full coverage and exhaustion -/

/-- C3: starting from the freshly constructed warehouse (empty occupancy,
capacity 5 × 4 × 3 = 60), the first 60 calls to `assign_location` return
exactly the 60 scan-order coordinates — a duplicate-free enumeration of
precisely the in-bounds grid, hence every coordinate exactly once — and
the 61st call returns `None`. -/
theorem assign_location_full_coverage :
    (assignRun (5 * 4 * 3 + 1) (Warehouse.init 25)).1 =
        (scanList 5 4 3).map some ++ [none] ∧
    (scanList 5 4 3).Nodup ∧
    (scanList 5 4 3).length = 5 * 4 * 3 ∧
    (∀ pos : Pos, pos ∈ scanList 5 4 3 ↔
      posInBounds (Warehouse.init 25) pos) := by
  refine ⟨by decide, scanList_nodup 5 4 3, by decide, fun pos => ?_⟩
  rw [mem_scanList]
  unfold posInBounds Warehouse.init
  constructor
  · rintro ⟨⟨h1, h2⟩, ⟨h3, h4⟩, h5, h6⟩
    exact ⟨h1, h2, h3, h4, h5, h6⟩
  · rintro ⟨h1, h2, h3, h4, h5, h6⟩
    exact ⟨⟨h1, h2⟩, ⟨h3, h4⟩, h5, h6⟩

/-! ## Claim C6 — occupancy only grows and stays within capacity -/

/-- Case analysis of one `assign_location` call: either every scan
position is occupied, nothing changes and `None` is returned, or the first
free scan position is returned and inserted. -/
lemma assign_location_spec (w : Warehouse) (p : Pallet) :
    (w.assign_location p = (none, w, p) ∧
      ∀ x ∈ scanList w.capacity_rows w.capacity_columns w.capacity_layers,
        x ∈ w.occupied) ∨
    ∃ pos,
      pos ∈ scanList w.capacity_rows w.capacity_columns w.capacity_layers ∧
      pos ∉ w.occupied ∧
      w.assign_location p =
        (some pos, { w with occupied := insert pos w.occupied },
          { p with location := some pos }) := by
  unfold Warehouse.assign_location
  cases hf : (scanList w.capacity_rows w.capacity_columns
      w.capacity_layers).find? (fun pos => decide (pos ∉ w.occupied)) with
  | none =>
      left
      refine ⟨rfl, fun x hx => ?_⟩
      have := List.find?_eq_none.mp hf x hx
      simpa using this
  | some q =>
      right
      refine ⟨q, List.mem_of_find?_eq_some hf, ?_, rfl⟩
      have hq := List.find?_some hf
      simpa using hq

/-- `assign_location` never removes an occupied position. -/
lemma assign_location_occupied_mono (w : Warehouse) (p : Pallet) :
    w.occupied ⊆ ((w.assign_location p).2.1).occupied := by
  rcases assign_location_spec w p with ⟨heq, -⟩ | ⟨pos, -, -, heq⟩
  · rw [heq]
  · rw [heq]
    exact Finset.subset_insert _ _

/-- `process_pallet` preserves the capacity fields and either leaves
`occupied` unchanged or inserts one fresh scan position. -/
lemma process_pallet_spec (w : Warehouse) (p : Pallet) :
    ((w.process_pallet p).1).capacity_rows = w.capacity_rows ∧
    ((w.process_pallet p).1).capacity_columns = w.capacity_columns ∧
    ((w.process_pallet p).1).capacity_layers = w.capacity_layers ∧
    (((w.process_pallet p).1).occupied = w.occupied ∨
      ∃ pos,
        pos ∈ scanList w.capacity_rows w.capacity_columns
          w.capacity_layers ∧
        pos ∉ w.occupied ∧
        ((w.process_pallet p).1).occupied = insert pos w.occupied) := by
  unfold Warehouse.process_pallet
  dsimp only
  rcases hcw : (w.log_step p "Inbound").check_weight p with ⟨b, p₁⟩
  cases b with
  | false => exact ⟨rfl, rfl, rfl, Or.inl rfl⟩
  | true =>
      dsimp only
      rcases assign_location_spec (((((w.log_step p "Inbound").log_step p₁
          "Weighing").log_step p₁ "RGV Loading").log_step p₁
          "Conveyor Transfer").log_step p₁ "ASRS Lift") p₁
        with ⟨heq, -⟩ | ⟨pos, hmem, hnot, heq⟩
      · rw [heq]
        exact ⟨rfl, rfl, rfl, Or.inl rfl⟩
      · rw [heq]
        exact ⟨rfl, rfl, rfl, Or.inr ⟨pos, hmem, hnot, rfl⟩⟩

/-- Every reachable warehouse keeps the hard-coded 5 × 4 × 3 capacity and
its occupancy inside the scan grid. -/
lemma reachable_inv (w : Warehouse) (h : Reachable w) :
    w.capacity_rows = 5 ∧ w.capacity_columns = 4 ∧
      w.capacity_layers = 3 ∧
      w.occupied ⊆ (scanList 5 4 3).toFinset := by
  induction h with
  | init tol => exact ⟨rfl, rfl, rfl, by simp [Warehouse.init]⟩
  | log_step w p step loc h ih => exact ih
  | assign_location w p h ih =>
      obtain ⟨hr, hc, hl, hocc⟩ := ih
      rcases assign_location_spec w p with ⟨heq, -⟩ | ⟨pos, hmem, -, heq⟩
      · rw [heq]
        exact ⟨hr, hc, hl, hocc⟩
      · rw [heq]
        refine ⟨hr, hc, hl, ?_⟩
        intro x hx
        rcases Finset.mem_insert.mp hx with rfl | hx
        · rw [hr, hc, hl] at hmem
          exact List.mem_toFinset.mpr hmem
        · exact hocc hx
  | process_pallet w p h ih =>
      obtain ⟨hr, hc, hl, hocc⟩ := ih
      obtain ⟨hr', hc', hl', hcase⟩ := process_pallet_spec w p
      refine ⟨hr'.trans hr, hc'.trans hc, hl'.trans hl, ?_⟩
      rcases hcase with heq | ⟨pos, hmem, -, heq⟩
      · rw [heq]
        exact hocc
      · rw [heq]
        intro x hx
        rcases Finset.mem_insert.mp hx with rfl | hx
        · rw [hr, hc, hl] at hmem
          exact List.mem_toFinset.mpr hmem
        · exact hocc hx

/-- After `n` allocator calls on the fresh warehouse the occupancy has
exactly `min n 60` positions (all inside the grid, capacity unchanged). -/
lemma assignIter_card (n : ℕ) :
    (assignIter n).capacity_rows = 5 ∧
    (assignIter n).capacity_columns = 4 ∧
    (assignIter n).capacity_layers = 3 ∧
    (assignIter n).occupied ⊆ (scanList 5 4 3).toFinset ∧
    (assignIter n).occupied.card = min n 60 := by
  induction n with
  | zero => exact ⟨rfl, rfl, rfl, by simp [assignIter, Warehouse.init],
      by simp [assignIter, Warehouse.init]⟩
  | succ n ih =>
      obtain ⟨hr, hc, hl, hsub, hcard⟩ := ih
      have hgrid : (scanList 5 4 3).toFinset.card = 60 := by decide
      rcases assign_location_spec (assignIter n) pallet0
        with ⟨heq, hall⟩ | ⟨pos, hmem, hnot, heq⟩
      · -- allocator found nothing: the grid is fully occupied
        have hfull : (scanList 5 4 3).toFinset ⊆ (assignIter n).occupied := by
          intro x hx
          rw [hr, hc, hl] at hall
          exact hall x (List.mem_toFinset.mp hx)
        have h60 : 60 ≤ (assignIter n).occupied.card := by
          rw [← hgrid]
          exact Finset.card_le_card hfull
        have hn : 60 ≤ n := by omega
        have : assignIter (n + 1) = assignIter n := by
          show ((assignIter n).assign_location pallet0).2.1 = assignIter n
          rw [heq]
        rw [this]
        exact ⟨hr, hc, hl, hsub, by omega⟩
      · -- allocator inserted a fresh grid position
        have hstep : assignIter (n + 1) =
            { assignIter n with
                occupied := insert pos (assignIter n).occupied } := by
          show ((assignIter n).assign_location pallet0).2.1 = _
          rw [heq]
        rw [hstep]
        refine ⟨hr, hc, hl, ?_, ?_⟩
        · intro x hx
          rcases Finset.mem_insert.mp hx with rfl | hx
          · rw [hr, hc, hl] at hmem
            exact List.mem_toFinset.mpr hmem
          · exact hsub hx
        · have hlt : (assignIter n).occupied.card < 60 := by
            have : (assignIter n).occupied.card ≤ 60 := by
              rw [← hgrid]
              exact Finset.card_le_card hsub
            rcases lt_or_eq_of_le this with h | h
            · exact h
            · exfalso
              have heqset : (assignIter n).occupied =
                  (scanList 5 4 3).toFinset :=
                Finset.eq_of_subset_of_card_le hsub (by omega)
              rw [hr, hc, hl] at hmem
              exact hnot (heqset ▸ List.mem_toFinset.mpr hmem)
          rw [Finset.card_insert_of_not_mem hnot, hcard]
          omega

/-- C6: `occupied` only grows — `assign_location` and `process_pallet`
never remove a triple and `log_step` leaves it untouched; a successful
assignment inserts exactly one fresh triple, so after `N` calls on the
fresh warehouse the occupancy size is `N` (for `N` up to capacity, i.e.
`min N 60`, every one of the first 60 calls succeeding); and in every
reachable state `|occupied| ≤ rows·cols·layers` (triples are a `Finset`,
mirroring the Python `set`: each appears at most once). -/
theorem occupied_monotone_and_bounded :
    (∀ (w : Warehouse) (p : Pallet),
      w.occupied ⊆ ((w.assign_location p).2.1).occupied) ∧
    (∀ (w : Warehouse) (p : Pallet) (step : String) (loc : Option Pos),
      (w.log_step p step loc).occupied = w.occupied) ∧
    (∀ (w : Warehouse) (p : Pallet),
      w.occupied ⊆ ((w.process_pallet p).1).occupied) ∧
    (∀ (w : Warehouse) (p : Pallet) (pos : Pos),
      (w.assign_location p).1 = some pos →
      pos ∉ w.occupied ∧
        ((w.assign_location p).2.1).occupied = insert pos w.occupied) ∧
    (∀ n : ℕ, (assignIter n).occupied.card = min n (5 * 4 * 3)) ∧
    (∀ w : Warehouse, Reachable w →
      w.occupied.card ≤
        w.capacity_rows * w.capacity_columns * w.capacity_layers) := by
  refine ⟨assign_location_occupied_mono, fun w p step loc => rfl,
    fun w p => ?_, fun w p pos h => ?_, fun n => (assignIter_card n).2.2.2.2,
    fun w hw => ?_⟩
  · obtain ⟨-, -, -, hcase⟩ := process_pallet_spec w p
    rcases hcase with heq | ⟨pos, -, -, heq⟩
    · rw [heq]
    · rw [heq]
      exact Finset.subset_insert _ _
  · rcases assign_location_spec w p with ⟨heq, -⟩ | ⟨pos', -, hnot, heq⟩
    · rw [heq] at h
      exact absurd h (by simp)
    · rw [heq] at h
      simp only [Option.some.injEq] at h
      subst h
      rw [heq]
      exact ⟨hnot, rfl⟩
  · obtain ⟨hr, hc, hl, hsub⟩ := reachable_inv w hw
    have hgrid : (scanList 5 4 3).toFinset.card = 60 := by decide
    rw [hr, hc, hl]
    calc w.occupied.card ≤ (scanList 5 4 3).toFinset.card :=
        Finset.card_le_card hsub
    _ = 60 := hgrid
    _ ≤ 5 * 4 * 3 := by omega

/-- C6 witness: one successful assignment on the fresh warehouse inserts
the fresh triple `(1,1,1)`, and the fresh warehouse — a reachable state —
has occupancy size `0 ≤ 5·4·3`. -/
theorem occupied_monotone_and_bounded_witness :
    ((Warehouse.init 25).assign_location pallet0).1 = some (1, 1, 1) ∧
    ((1, 1, 1) ∉ (Warehouse.init 25).occupied ∧
      (((Warehouse.init 25).assign_location pallet0).2.1).occupied =
        insert (1, 1, 1) (Warehouse.init 25).occupied) ∧
    (Warehouse.init 25).occupied.card ≤
      (Warehouse.init 25).capacity_rows *
        (Warehouse.init 25).capacity_columns *
        (Warehouse.init 25).capacity_layers :=
  ⟨by decide,
   occupied_monotone_and_bounded.2.2.2.1 (Warehouse.init 25) pallet0
     (1, 1, 1) (by decide),
   occupied_monotone_and_bounded.2.2.2.2.2 (Warehouse.init 25)
     (Reachable.init 25)⟩

/-- C10 witness: on the fresh warehouse the returned coordinate `(1,1,1)`
is in bounds, fresh, and occupied afterwards; and a concrete RGV-exhausted
pallet stored at the 0-based slot `(0,0,0)` is logged as
`"Row 1, Col 1, Layer 1"`. -/
theorem assign_location_one_based_and_log_offset_witness :
    ((Warehouse.init 25).assign_location pallet0).1 = some (1, 1, 1) ∧
    (posInBounds (Warehouse.init 25) (1, 1, 1) ∧
      (1, 1, 1) ∉ (Warehouse.init 25).occupied ∧
      (1, 1, 1) ∈
        (((Warehouse.init 25).assign_location pallet0).2.1).occupied) ∧
    ((AppWarehouse.init 3 3 2 25).assign_location).1 = some (0, 0, 0) ∧
    (stepPallet 25 (AppWarehouse.init 3 3 2 25) "P1"
        { stage := Stage.rgv, index := 2, row := none, col := none,
          layer := none, weight := 400, rfid := "RFID-1" }).2.2 =
      [{ pallet_id := "P1", rfid := "RFID-1", weight := 400,
         stage := "Stored",
         location := "Row " ++ toString (0 + 1) ++ ", Col " ++
           toString (0 + 1) ++ ", Layer " ++ toString (0 + 1) }] :=
  ⟨by decide,
   assign_location_one_based_and_log_offset.1 (Warehouse.init 25) pallet0
     (1, 1, 1) (by decide),
   by decide,
   assign_location_one_based_and_log_offset.2 25
     (AppWarehouse.init 3 3 2 25) "P1"
     { stage := Stage.rgv, index := 2, row := none, col := none,
       layer := none, weight := 400, rfid := "RFID-1" } 0 0 0 rfl
     (by decide) (by decide)⟩

/-! ## Driver tick-loop lemmas (claims C4, C7, C8) -/

lemma tickAux_nil (tol : ℚ) (w : AppWarehouse) :
    tickAux tol w [] = ([], w, []) := rfl

/-- Unfolding equation for one entry of the per-tick walk. -/
lemma tickAux_cons (tol : ℚ) (w : AppWarehouse) (pid : String)
    (pos : PalletPos) (rest : List (String × PalletPos)) :
    tickAux tol w ((pid, pos) :: rest) =
      ((pid, (stepPallet tol w pid pos).1) ::
          (tickAux tol (stepPallet tol w pid pos).2.1 rest).1,
        (tickAux tol (stepPallet tol w pid pos).2.1 rest).2.1,
        (stepPallet tol w pid pos).2.2 ++
          (tickAux tol (stepPallet tol w pid pos).2.1 rest).2.2) := by
  rcases hstep : stepPallet tol w pid pos with ⟨pos₁, w₁, recs₁⟩
  rcases haux : tickAux tol w₁ rest with ⟨rest₁, w₂, recs₂⟩
  simp [tickAux, hstep, haux]

/-- Unfolding equation for one tick. -/
lemma tick_def (tol : ℚ) (s : SimState) :
    tick tol s =
      { pallet_positions := (tickAux tol s.warehouse s.pallet_positions).1
        warehouse := (tickAux tol s.warehouse s.pallet_positions).2.1
        movements := s.movements ++
          (tickAux tol s.warehouse s.pallet_positions).2.2 } := by
  rcases haux : tickAux tol s.warehouse s.pallet_positions
    with ⟨ps, w₁, recs⟩
  simp [tick, haux]

/-- One sub-step keeps the counter in range and strictly decreases the
remaining-work measure of a non-terminal pallet (terminal pallets stay at
measure zero). -/
lemma stepPallet_measure (tol : ℚ) (w : AppWarehouse) (pid : String)
    (pos : PalletPos) (hok : idxOk pos) :
    idxOk (stepPallet tol w pid pos).1 ∧
      palletMeasure (stepPallet tol w pid pos).1 ≤ palletMeasure pos - 1 := by
  obtain ⟨st, idx, r, c, l, wt, rf⟩ := pos
  obtain ⟨hconv, hrgv⟩ := hok
  cases st with
  | inbound =>
      simp only [stepPallet]
      split_ifs with h
      · refine ⟨⟨(fun hc => nomatch hc), (fun hc => nomatch hc)⟩, ?_⟩
        show (0 : ℕ) ≤ (1 + CONVEYOR_SLOTS + RGV_SLOTS) - 1
        omega
      · refine ⟨⟨fun _ => ?_, (fun hc => nomatch hc)⟩, ?_⟩
        · show (0 : ℕ) ≤ CONVEYOR_SLOTS - 1
          omega
        · show (CONVEYOR_SLOTS - 0) + RGV_SLOTS ≤
            (1 + CONVEYOR_SLOTS + RGV_SLOTS) - 1
          show (3 - 0) + 3 ≤ (1 + 3 + 3) - 1
          omega
  | conveyor =>
      have hidx : idx ≤ CONVEYOR_SLOTS - 1 := hconv rfl
      simp only [CONVEYOR_SLOTS] at hidx
      simp only [stepPallet]
      split_ifs with h
      · simp only [CONVEYOR_SLOTS] at h
        refine ⟨⟨fun _ => ?_, (fun hc => nomatch hc)⟩, ?_⟩
        · show idx + 1 ≤ CONVEYOR_SLOTS - 1
          show idx + 1 ≤ 3 - 1
          omega
        · show (CONVEYOR_SLOTS - (idx + 1)) + RGV_SLOTS ≤
            ((CONVEYOR_SLOTS - idx) + RGV_SLOTS) - 1
          show (3 - (idx + 1)) + 3 ≤ ((3 - idx) + 3) - 1
          omega
      · simp only [CONVEYOR_SLOTS] at h
        refine ⟨⟨(fun hc => nomatch hc), (fun _ => ?_)⟩, ?_⟩
        · show (0 : ℕ) ≤ RGV_SLOTS - 1
          omega
        · show RGV_SLOTS - 0 ≤ ((CONVEYOR_SLOTS - idx) + RGV_SLOTS) - 1
          show (3 : ℕ) - 0 ≤ ((3 - idx) + 3) - 1
          omega
  | rgv =>
      have hidx : idx ≤ RGV_SLOTS - 1 := hrgv rfl
      simp only [RGV_SLOTS] at hidx
      simp only [stepPallet]
      split_ifs with h
      · simp only [RGV_SLOTS] at h
        refine ⟨⟨(fun hc => nomatch hc), (fun _ => ?_)⟩, ?_⟩
        · show idx + 1 ≤ RGV_SLOTS - 1
          show idx + 1 ≤ 3 - 1
          omega
        · show RGV_SLOTS - (idx + 1) ≤ (RGV_SLOTS - idx) - 1
          show (3 : ℕ) - (idx + 1) ≤ (3 - idx) - 1
          omega
      · rcases hassign : w.assign_location with ⟨res, w₁⟩
        cases res with
        | none =>
            refine ⟨⟨(fun hc => nomatch hc), (fun hc => nomatch hc)⟩, ?_⟩
            show (0 : ℕ) ≤ (RGV_SLOTS - idx) - 1
            omega
        | some pos₁ =>
            obtain ⟨r₁, c₁, l₁⟩ := pos₁
            refine ⟨⟨(fun hc => nomatch hc), (fun hc => nomatch hc)⟩, ?_⟩
            show (0 : ℕ) ≤ (RGV_SLOTS - idx) - 1
            omega
  | asrs =>
      exact ⟨⟨(fun hc => nomatch hc), (fun hc => nomatch hc)⟩, Nat.zero_le _⟩
  | manual =>
      exact ⟨⟨(fun hc => nomatch hc), (fun hc => nomatch hc)⟩, Nat.zero_le _⟩

/-- An in-range pallet with no remaining work is terminal. -/
lemma measure_zero_terminal (pos : PalletPos) (hok : idxOk pos)
    (h : palletMeasure pos = 0) :
    pos.stage = Stage.asrs ∨ pos.stage = Stage.manual := by
  obtain ⟨hconv, hrgv⟩ := hok
  cases hst : pos.stage with
  | inbound =>
      rw [palletMeasure, hst] at h
      simp [CONVEYOR_SLOTS, RGV_SLOTS] at h
  | conveyor =>
      have := hconv hst
      rw [palletMeasure, hst] at h
      simp only [CONVEYOR_SLOTS, RGV_SLOTS] at h this
      omega
  | rgv =>
      have := hrgv hst
      rw [palletMeasure, hst] at h
      simp only [RGV_SLOTS] at h this
      omega
  | asrs => exact Or.inl rfl
  | manual => exact Or.inr rfl

/-- One tick decreases every pallet's remaining-work bound by one. -/
lemma tickAux_measure (tol : ℚ) (n : ℕ) :
    ∀ (l : List (String × PalletPos)) (w : AppWarehouse),
      (∀ e ∈ l, idxOk e.2 ∧ palletMeasure e.2 ≤ n) →
      ∀ e ∈ (tickAux tol w l).1, idxOk e.2 ∧ palletMeasure e.2 ≤ n - 1 := by
  intro l
  induction l with
  | nil =>
      intro w h e he
      rw [tickAux_nil] at he
      cases he
  | cons a t ih =>
      obtain ⟨pid, pos⟩ := a
      intro w h e he
      rw [tickAux_cons] at he
      rcases List.mem_cons.mp he with rfl | he
      · obtain ⟨hok, hm⟩ := h (pid, pos) (List.mem_cons_self _ _)
        have hm' : palletMeasure pos ≤ n := hm
        obtain ⟨hok₁, hm₁⟩ := stepPallet_measure tol w pid pos hok
        refine ⟨hok₁, ?_⟩
        show palletMeasure (stepPallet tol w pid pos).1 ≤ n - 1
        omega
      · exact ih (stepPallet tol w pid pos).2.1
          (fun e₁ he₁ => h e₁ (List.mem_cons_of_mem _ he₁)) e he

/-- With enough fuel — one unit per unit of remaining work — the driver
loop ends with every pallet terminal. -/
lemma allTerminal_runSim (tol : ℚ) :
    ∀ (n : ℕ) (s : SimState),
      (∀ e ∈ s.pallet_positions, idxOk e.2 ∧ palletMeasure e.2 ≤ n) →
      allTerminal (runSim tol n s) = true := by
  intro n
  induction n with
  | zero =>
      intro s h
      have hall : allTerminal s = true := by
        rw [allTerminal, List.all_eq_true]
        intro e he
        obtain ⟨hok, hm⟩ := h e he
        exact decide_eq_true (measure_zero_terminal e.2 hok (by omega))
      simpa [runSim] using hall
  | succ n ih =>
      intro s h
      rw [runSim]
      split_ifs with ht
      · exact ht
      · apply ih
        rw [tick_def]
        intro e he
        have hstep := tickAux_measure tol (n + 1) s.pallet_positions
          s.warehouse h e he
        exact ⟨hstep.1, by omega⟩


/-- The `continue` on `src/app.py` line 199: a terminal pallet is left
untouched and inserts no movement row. -/
lemma stepPallet_terminal (tol : ℚ) (w : AppWarehouse) (pid : String)
    (pos : PalletPos)
    (h : pos.stage = Stage.asrs ∨ pos.stage = Stage.manual) :
    stepPallet tol w pid pos = (pos, w, []) := by
  obtain ⟨st, idx, r, c, l, wt, rf⟩ := pos
  rcases h with h | h <;> simp only at h <;> subst h <;> rfl

/-- A tick over a list of terminal pallets changes nothing. -/
lemma tickAux_terminal (tol : ℚ) :
    ∀ (l : List (String × PalletPos)) (w : AppWarehouse),
      (∀ e ∈ l, e.2.stage = Stage.asrs ∨ e.2.stage = Stage.manual) →
      tickAux tol w l = (l, w, []) := by
  intro l
  induction l with
  | nil => intro w _; rfl
  | cons a t ih =>
      obtain ⟨pid, pos⟩ := a
      intro w h
      rw [tickAux_cons,
        stepPallet_terminal tol w pid pos (h (pid, pos)
          (List.mem_cons_self _ _)),
        ih w (fun e he => h e (List.mem_cons_of_mem _ he))]
      rfl

/-- A tick of an all-terminal state is the identity. -/
lemma tick_terminal (tol : ℚ) (s : SimState)
    (h : allTerminal s = true) : tick tol s = s := by
  rw [allTerminal, List.all_eq_true] at h
  rw [tick_def, tickAux_terminal tol s.pallet_positions s.warehouse
    (fun e he => of_decide_eq_true (h e he))]
  cases s
  simp

/-- Iterating ticks fixes an all-terminal state. -/
lemma tick_iterate_terminal (tol : ℚ) (s : SimState)
    (h : allTerminal s = true) :
    ∀ n : ℕ, (tick tol)^[n] s = s := by
  intro n
  induction n with
  | zero => rfl
  | succ n ih => rw [Function.iterate_succ_apply, tick_terminal tol s h, ih]

/-- The fuelled `while` loop equals plain tick iteration: the early exit
fires only on all-terminal states, which ticks fix. -/
lemma runSim_eq_iterate (tol : ℚ) :
    ∀ (n : ℕ) (s : SimState), runSim tol n s = (tick tol)^[n] s := by
  intro n
  induction n with
  | zero => intro s; rfl
  | succ n ih =>
      intro s
      rw [runSim]
      split_ifs with ht
      · rw [tick_iterate_terminal tol s ht]
      · rw [ih (tick tol s), Function.iterate_succ_apply]

/-- The driver's initial entries are inbound with counter 0, so each
pallet needs at most `1 + CONVEYOR_SLOTS + RGV_SLOTS` sub-steps. -/
lemma initState_measure (pallets : List AppPallet) (w : AppWarehouse) :
    ∀ e ∈ (initState pallets w).pallet_positions,
      idxOk e.2 ∧ palletMeasure e.2 ≤ 1 + CONVEYOR_SLOTS + RGV_SLOTS := by
  intro e he
  simp only [initState, List.mem_map] at he
  obtain ⟨p, -, rfl⟩ := he
  exact ⟨⟨(fun hc => nomatch hc), (fun hc => nomatch hc)⟩, le_refl _⟩

/-- Seven ticks suffice: every pallet is terminal afterwards. -/
lemma allTerminal_after_fuel (tol : ℚ) (pallets : List AppPallet)
    (w : AppWarehouse) :
    allTerminal (runSim tol (1 + CONVEYOR_SLOTS + RGV_SLOTS)
      (initState pallets w)) = true :=
  allTerminal_runSim tol (1 + CONVEYOR_SLOTS + RGV_SLOTS)
    (initState pallets w) (initState_measure pallets w)

/-! ## Claim C4 — the tick loop terminates -/

/-- C4: for every finite pallet list and warehouse, the driver loop ends
with every pallet in a terminal stage (`asrs` or `manual`) after at most
`1 + CONVEYOR_SLOTS + RGV_SLOTS = 7` ticks — each tick advances each
non-terminal pallet by exactly one sub-step (`stepPallet`), and a tick of
an all-terminal state changes nothing. -/
theorem tick_loop_terminates :
    (∀ (tol : ℚ) (pallets : List AppPallet) (w : AppWarehouse),
      allTerminal (runSim tol (1 + CONVEYOR_SLOTS + RGV_SLOTS)
        (initState pallets w)) = true) ∧
    (∀ (tol : ℚ) (s : SimState), allTerminal s = true → tick tol s = s) :=
  ⟨allTerminal_after_fuel, tick_terminal⟩

/-- C4 witness: a concrete two-pallet run reaches all-terminal within 7
ticks, and a tick of a concrete all-terminal state is the identity. -/
theorem tick_loop_terminates_witness :
    allTerminal (runSim 25 (1 + CONVEYOR_SLOTS + RGV_SLOTS)
      (initState [⟨"P1", 400, "RFID-1"⟩, ⟨"P2", 450, "RFID-2"⟩]
        (AppWarehouse.init 3 3 2 25))) = true ∧
    (allTerminal
        { pallet_positions := [("P1",
            { stage := Stage.manual, index := 0, row := none, col := none,
              layer := none, weight := 450, rfid := "RFID-1" })]
          warehouse := AppWarehouse.init 3 3 2 25
          movements := [] } = true ∧
      tick 25
        { pallet_positions := [("P1",
            { stage := Stage.manual, index := 0, row := none, col := none,
              layer := none, weight := 450, rfid := "RFID-1" })]
          warehouse := AppWarehouse.init 3 3 2 25
          movements := [] } =
        { pallet_positions := [("P1",
            { stage := Stage.manual, index := 0, row := none, col := none,
              layer := none, weight := 450, rfid := "RFID-1" })]
          warehouse := AppWarehouse.init 3 3 2 25
          movements := [] }) :=
  ⟨tick_loop_terminates.1 25 [⟨"P1", 400, "RFID-1"⟩, ⟨"P2", 450, "RFID-2"⟩]
      (AppWarehouse.init 3 3 2 25),
   by decide,
   tick_loop_terminates.2 25 _ (by decide)⟩

/-! ## Claim C8 — no free slot routes to manual, never fatally -/

/-- When the driver's allocator returns `None` it alters nothing. -/
lemma appAssign_none (w : AppWarehouse)
    (h : (w.assign_location).1 = none) :
    w.assign_location = (none, w) := by
  unfold AppWarehouse.assign_location at h ⊢
  cases hf : (scanList0 w.rows w.columns w.layers).find?
      (fun pos => decide (pos ∉ w.occupied)) with
  | none => rfl
  | some q => rw [hf] at h; exact absurd h (by simp)

/-- C8: a pallet that exhausts the RGV counter while the allocator has no
free slot transitions to the terminal `manual` stage with exactly one
`"Manual (No Space)"` row and an unchanged warehouse; the condition is
never fatal — the driver loop is a total function that still brings every
pallet of any run to a terminal stage within the usual fuel. -/
theorem no_space_routed_manual_nonfatal :
    (∀ (tol : ℚ) (w : AppWarehouse) (pid : String) (pos : PalletPos),
      pos.stage = Stage.rgv → ¬ pos.index < RGV_SLOTS - 1 →
      (w.assign_location).1 = none →
      stepPallet tol w pid pos =
        ({ pos with stage := Stage.manual }, w,
          [{ pallet_id := pid, rfid := pos.rfid, weight := pos.weight,
             stage := "Manual (No Space)", location := "" }])) ∧
    (∀ (tol : ℚ) (pallets : List AppPallet) (w : AppWarehouse),
      allTerminal (runSim tol (1 + CONVEYOR_SLOTS + RGV_SLOTS)
        (initState pallets w)) = true) := by
  constructor
  · intro tol w pid pos hst hidx h
    obtain ⟨st, idx, r, c, l, wt, rf⟩ := pos
    simp only at hst hidx
    subst hst
    simp only [stepPallet, if_neg hidx, appAssign_none w h]
  · exact allTerminal_after_fuel

/-- C8 witness: on a full 1 × 1 × 1 warehouse, a concrete RGV-exhausted
pallet is routed to `manual` with the `"Manual (No Space)"` row and the
warehouse untouched. -/
theorem no_space_routed_manual_nonfatal_witness :
    (({ rows := 1, columns := 1, layers := 1, tolerance := 25,
        occupied := {(0, 0, 0)} } : AppWarehouse).assign_location).1 =
      none ∧
    stepPallet 25
        { rows := 1, columns := 1, layers := 1, tolerance := 25,
          occupied := {(0, 0, 0)} } "P2"
        { stage := Stage.rgv, index := 2, row := none, col := none,
          layer := none, weight := 400, rfid := "RFID-2" } =
      ({ stage := Stage.manual, index := 2, row := none, col := none,
          layer := none, weight := 400, rfid := "RFID-2" },
        { rows := 1, columns := 1, layers := 1, tolerance := 25,
          occupied := {(0, 0, 0)} },
        [{ pallet_id := "P2", rfid := "RFID-2", weight := 400,
           stage := "Manual (No Space)", location := "" }]) :=
  ⟨by decide,
   no_space_routed_manual_nonfatal.1 25
     { rows := 1, columns := 1, layers := 1, tolerance := 25,
       occupied := {(0, 0, 0)} } "P2"
     { stage := Stage.rgv, index := 2, row := none, col := none,
       layer := none, weight := 400, rfid := "RFID-2" }
     rfl (by decide) (by decide)⟩

/-! ## Claim C7 — out-of-tolerance pallets go straight to manual -/

/-- The per-tick walk distributes over list append. -/
lemma tickAux_append (tol : ℚ) :
    ∀ (A B : List (String × PalletPos)) (w : AppWarehouse),
      tickAux tol w (A ++ B) =
        ((tickAux tol w A).1 ++
            (tickAux tol (tickAux tol w A).2.1 B).1,
          (tickAux tol (tickAux tol w A).2.1 B).2.1,
          (tickAux tol w A).2.2 ++
            (tickAux tol (tickAux tol w A).2.1 B).2.2) := by
  intro A
  induction A with
  | nil => intro B w; simp [tickAux_nil]
  | cons a t ih =>
      obtain ⟨pid, pos⟩ := a
      intro B w
      rw [List.cons_append, tickAux_cons, tickAux_cons,
        ih B (stepPallet tol w pid pos).2.1]
      simp [List.append_assoc]

/-- A tick preserves the dict keys (pallet ids), in order. -/
lemma tickAux_keys (tol : ℚ) :
    ∀ (l : List (String × PalletPos)) (w : AppWarehouse),
      ((tickAux tol w l).1).map Prod.fst = l.map Prod.fst := by
  intro l
  induction l with
  | nil => intro w; rfl
  | cons a t ih =>
      obtain ⟨pid, pos⟩ := a
      intro w
      rw [tickAux_cons]
      simp only [List.map_cons]
      rw [ih]

/-- Every movement row a sub-step inserts carries the id of the pallet
being stepped. -/
lemma stepPallet_recs_pid (tol : ℚ) (w : AppWarehouse) (pid : String)
    (pos : PalletPos) :
    ∀ rec ∈ (stepPallet tol w pid pos).2.2, rec.pallet_id = pid := by
  intro rec hrec
  obtain ⟨st, idx, r, c, l, wt, rf⟩ := pos
  cases st with
  | inbound =>
      simp only [stepPallet] at hrec
      split_ifs at hrec <;> simp only [List.mem_singleton] at hrec <;>
        subst hrec <;> rfl
  | conveyor =>
      simp only [stepPallet] at hrec
      split_ifs at hrec
      · cases hrec
      · simp only [List.mem_singleton] at hrec
        subst hrec
        rfl
  | rgv =>
      simp only [stepPallet] at hrec
      split_ifs at hrec
      · cases hrec
      · rcases hassign : w.assign_location with ⟨res, w₁⟩
        rw [hassign] at hrec
        cases res with
        | none =>
            simp only [List.mem_singleton] at hrec
            subst hrec
            rfl
        | some pos₁ =>
            obtain ⟨r₁, c₁, l₁⟩ := pos₁
            simp only [List.mem_singleton] at hrec
            subst hrec
            rfl
  | asrs => cases hrec
  | manual => cases hrec

/-- Every movement row a tick inserts carries the id of some pallet in the
dict. -/
lemma tickAux_recs_pid (tol : ℚ) :
    ∀ (l : List (String × PalletPos)) (w : AppWarehouse),
      ∀ rec ∈ (tickAux tol w l).2.2,
        rec.pallet_id ∈ l.map Prod.fst := by
  intro l
  induction l with
  | nil => intro w rec hrec; rw [tickAux_nil] at hrec; cases hrec
  | cons a t ih =>
      obtain ⟨pid, pos⟩ := a
      intro w rec hrec
      rw [tickAux_cons] at hrec
      rcases List.mem_append.mp hrec with hrec | hrec
      · rw [stepPallet_recs_pid tol w pid pos rec hrec]
        exact List.mem_cons_self _ _
      · exact List.mem_cons_of_mem _
          (ih (stepPallet tol w pid pos).2.1 rec hrec)

/-- Relation between a run containing the rejected pallet (`s`) and the
same run without it (`t`): the rejected pallet sits at a fixed terminal
`manual` entry, both runs share the warehouse, and the movement tables
agree except for the single `"Manual Packing"` row `mp`; no other pallet
shares the rejected id. -/
def ErasesTo (bid : String) (bp : PalletPos) (mp : MovementRecord)
    (s t : SimState) : Prop :=
  ∃ A B X Y,
    s.pallet_positions = A ++ (bid, bp) :: B ∧
    t.pallet_positions = A ++ B ∧
    s.warehouse = t.warehouse ∧
    s.movements = X ++ mp :: Y ∧
    t.movements = X ++ Y ∧
    (∀ e ∈ A ++ B, e.1 ≠ bid) ∧
    (∀ rec ∈ X ++ Y, rec.pallet_id ≠ bid)

/-- One tick preserves the erasure relation: the manual entry is skipped,
so both runs step the same pallets against the same warehouse. -/
lemma erasesTo_tick (tol : ℚ) (bid : String) (bp : PalletPos)
    (mp : MovementRecord) (hbp : bp.stage = Stage.manual)
    (s t : SimState) (h : ErasesTo bid bp mp s t) :
    ErasesTo bid bp mp (tick tol s) (tick tol t) := by
  obtain ⟨A, B, X, Y, hs, ht, hw, hsm, htm, hkeys, hrecs⟩ := h
  refine ⟨(tickAux tol t.warehouse A).1,
    (tickAux tol (tickAux tol t.warehouse A).2.1 B).1,
    X,
    Y ++ ((tickAux tol t.warehouse A).2.2 ++
      (tickAux tol (tickAux tol t.warehouse A).2.1 B).2.2),
    ?_, ?_, ?_, ?_, ?_, ?_, ?_⟩
  · rw [tick_def, hs, hw, tickAux_append, tickAux_cons,
      stepPallet_terminal tol _ bid bp (Or.inr hbp)]
  · rw [tick_def, ht, tickAux_append]
  · rw [tick_def, tick_def, hs, ht, hw, tickAux_append, tickAux_append,
      tickAux_cons, stepPallet_terminal tol _ bid bp (Or.inr hbp)]
  · rw [tick_def, hs, hw, hsm, tickAux_append, tickAux_cons,
      stepPallet_terminal tol _ bid bp (Or.inr hbp)]
    simp
  · rw [tick_def, ht, htm, tickAux_append]
    simp
  · intro e he
    rcases List.mem_append.mp he with he | he
    · have : e.1 ∈ ((tickAux tol t.warehouse A).1).map Prod.fst :=
        List.mem_map_of_mem Prod.fst he
      rw [tickAux_keys] at this
      obtain ⟨a, ha, hae⟩ := List.mem_map.mp this
      rw [← hae]
      exact hkeys a (List.mem_append.mpr (Or.inl ha))
    · have : e.1 ∈
          ((tickAux tol (tickAux tol t.warehouse A).2.1 B).1).map
            Prod.fst :=
        List.mem_map_of_mem Prod.fst he
      rw [tickAux_keys] at this
      obtain ⟨a, ha, hae⟩ := List.mem_map.mp this
      rw [← hae]
      exact hkeys a (List.mem_append.mpr (Or.inr ha))
  · intro rec hrec
    rcases List.mem_append.mp hrec with hrec | hrec
    · exact hrecs rec (List.mem_append.mpr (Or.inl hrec))
    · rcases List.mem_append.mp hrec with hrec | hrec
      · exact hrecs rec (List.mem_append.mpr (Or.inr hrec))
      · rcases List.mem_append.mp hrec with hrec | hrec
        · have := tickAux_recs_pid tol A t.warehouse rec hrec
          obtain ⟨a, ha, hae⟩ := List.mem_map.mp this
          rw [← hae]
          exact hkeys a (List.mem_append.mpr (Or.inl ha))
        · have := tickAux_recs_pid tol B (tickAux tol t.warehouse A).2.1
            rec hrec
          obtain ⟨a, ha, hae⟩ := List.mem_map.mp this
          rw [← hae]
          exact hkeys a (List.mem_append.mpr (Or.inr ha))

/-- The inbound gate rejects an out-of-tolerance pallet: straight to
`manual`, one `"Manual Packing"` row, warehouse untouched
(`src/app.py` lines 210-213). -/
lemma stepPallet_inbound_reject (tol : ℚ) (w : AppWarehouse) (pid : String)
    (pos : PalletPos) (hst : pos.stage = Stage.inbound)
    (hbad : |pos.weight - 400| > tol) :
    stepPallet tol w pid pos =
      ({ pos with stage := Stage.manual }, w,
        [{ pallet_id := pid, rfid := pos.rfid, weight := pos.weight,
           stage := "Manual Packing", location := "" }]) := by
  obtain ⟨st, idx, r, c, l, wt, rf⟩ := pos
  simp only at hst hbad
  subst hst
  simp only [stepPallet, if_pos hbad]

/-- After the first tick, the run with the rejected pallet erases to the
run without it. -/
lemma erasesTo_init (tol : ℚ) (L1 L2 : List AppPallet) (bad : AppPallet)
    (w₀ : AppWarehouse) (hbad : |bad.weight - 400| > tol)
    (hid : ∀ p ∈ L1 ++ L2, p.pallet_id ≠ bad.pallet_id) :
    ErasesTo bad.pallet_id { initPos bad with stage := Stage.manual }
      { pallet_id := bad.pallet_id, rfid := bad.rfid, weight := bad.weight,
        stage := "Manual Packing", location := "" }
      (tick tol (initState (L1 ++ [bad] ++ L2) w₀))
      (tick tol (initState (L1 ++ L2) w₀)) := by
  have hsplit :
      (initState (L1 ++ [bad] ++ L2) w₀).pallet_positions =
        (L1.map fun p => (p.pallet_id, initPos p)) ++
          (bad.pallet_id, initPos bad) ::
            (L2.map fun p => (p.pallet_id, initPos p)) := by
    simp [initState]
  have htsplit :
      (initState (L1 ++ L2) w₀).pallet_positions =
        (L1.map fun p => (p.pallet_id, initPos p)) ++
          (L2.map fun p => (p.pallet_id, initPos p)) := by
    simp [initState]
  have hkeys1 :
      ((L1.map fun p => (p.pallet_id, initPos p)).map Prod.fst) =
        L1.map AppPallet.pallet_id := by
    simp [Function.comp]
  have hkeys2 :
      ((L2.map fun p => (p.pallet_id, initPos p)).map Prod.fst) =
        L2.map AppPallet.pallet_id := by
    simp [Function.comp]
  have hstep := stepPallet_inbound_reject tol
    (tickAux tol w₀ (L1.map fun p => (p.pallet_id, initPos p))).2.1
    bad.pallet_id (initPos bad) rfl hbad
  have hw1 : (initState (L1 ++ [bad] ++ L2) w₀).warehouse = w₀ := rfl
  have hw2 : (initState (L1 ++ L2) w₀).warehouse = w₀ := rfl
  refine ⟨(tickAux tol w₀ (L1.map fun p => (p.pallet_id, initPos p))).1,
    (tickAux tol
      (tickAux tol w₀ (L1.map fun p => (p.pallet_id, initPos p))).2.1
      (L2.map fun p => (p.pallet_id, initPos p))).1,
    (tickAux tol w₀ (L1.map fun p => (p.pallet_id, initPos p))).2.2,
    (tickAux tol
      (tickAux tol w₀ (L1.map fun p => (p.pallet_id, initPos p))).2.1
      (L2.map fun p => (p.pallet_id, initPos p))).2.2,
    ?_, ?_, ?_, ?_, ?_, ?_, ?_⟩
  · rw [tick_def, hsplit, hw1, tickAux_append, tickAux_cons, hstep]
  · rw [tick_def, htsplit, hw2, tickAux_append]
  · rw [tick_def, tick_def, hsplit, htsplit, hw1, hw2, tickAux_append,
      tickAux_append, tickAux_cons, hstep]
  · rw [tick_def, hsplit, hw1, tickAux_append, tickAux_cons, hstep]
    simp [initState, initPos]
  · rw [tick_def, htsplit, hw2, tickAux_append]
    simp [initState]
  · intro e he
    rcases List.mem_append.mp he with he | he
    · have : e.1 ∈
          ((tickAux tol w₀
            (L1.map fun p => (p.pallet_id, initPos p))).1).map Prod.fst :=
        List.mem_map_of_mem Prod.fst he
      rw [tickAux_keys, hkeys1] at this
      obtain ⟨p, hp, hpe⟩ := List.mem_map.mp this
      rw [← hpe]
      exact hid p (List.mem_append.mpr (Or.inl hp))
    · have : e.1 ∈
          ((tickAux tol
            (tickAux tol w₀
              (L1.map fun p => (p.pallet_id, initPos p))).2.1
            (L2.map fun p => (p.pallet_id, initPos p))).1).map Prod.fst :=
        List.mem_map_of_mem Prod.fst he
      rw [tickAux_keys, hkeys2] at this
      obtain ⟨p, hp, hpe⟩ := List.mem_map.mp this
      rw [← hpe]
      exact hid p (List.mem_append.mpr (Or.inr hp))
  · intro rec hrec
    rcases List.mem_append.mp hrec with hrec | hrec
    · have := tickAux_recs_pid tol
        (L1.map fun p => (p.pallet_id, initPos p)) w₀ rec hrec
      rw [hkeys1] at this
      obtain ⟨p, hp, hpe⟩ := List.mem_map.mp this
      rw [← hpe]
      exact hid p (List.mem_append.mpr (Or.inl hp))
    · have := tickAux_recs_pid tol
        (L2.map fun p => (p.pallet_id, initPos p))
        (tickAux tol w₀
          (L1.map fun p => (p.pallet_id, initPos p))).2.1 rec hrec
      rw [hkeys2] at this
      obtain ⟨p, hp, hpe⟩ := List.mem_map.mp this
      rw [← hpe]
      exact hid p (List.mem_append.mpr (Or.inr hp))

/-- The erasure relation is preserved by any number of ticks. -/
lemma erasesTo_iterate (tol : ℚ) (bid : String) (bp : PalletPos)
    (mp : MovementRecord) (hbp : bp.stage = Stage.manual) (s t : SimState)
    (h : ErasesTo bid bp mp s t) :
    ∀ n : ℕ, ErasesTo bid bp mp ((tick tol)^[n] s) ((tick tol)^[n] t) := by
  intro n
  induction n with
  | zero => exact h
  | succ n ih =>
      rw [Function.iterate_succ_apply', Function.iterate_succ_apply']
      exact erasesTo_tick tol bid bp mp hbp _ _ ih

/-- `find?` by key lands on the middle entry when the prefix keys all
differ. -/
lemma find?_key_middle (bid : String) (bp : PalletPos) :
    ∀ (A B : List (String × PalletPos)), (∀ e ∈ A, e.1 ≠ bid) →
      (A ++ (bid, bp) :: B).find? (fun e => e.1 == bid) =
        some (bid, bp) := by
  intro A
  induction A with
  | nil =>
      intro B _
      rw [List.nil_append]
      exact List.find?_cons_of_pos _ (by simp)
  | cons a t ih =>
      intro B h
      have hne : ¬ ((fun e : String × PalletPos => e.1 == bid) a = true) :=
        by simp [h a (List.mem_cons_self _ _)]
      rw [List.cons_append,
        List.find?_cons_of_neg (t ++ (bid, bp) :: B) hne]
      exact ih B (fun e he => h e (List.mem_cons_of_mem _ he))

/-- Filtering by the rejected id keeps exactly the one inserted row. -/
lemma filter_single_pid (bid : String) (mp : MovementRecord)
    (hmp : mp.pallet_id = bid) (X Y : List MovementRecord)
    (h : ∀ rec ∈ X ++ Y, rec.pallet_id ≠ bid) :
    (X ++ mp :: Y).filter (fun rec => rec.pallet_id == bid) = [mp] := by
  have hX : X.filter (fun rec => rec.pallet_id == bid) = [] := by
    rw [List.filter_eq_nil_iff]
    intro rec hrec
    simp [h rec (List.mem_append.mpr (Or.inl hrec))]
  have hY : Y.filter (fun rec => rec.pallet_id == bid) = [] := by
    rw [List.filter_eq_nil_iff]
    intro rec hrec
    simp [h rec (List.mem_append.mpr (Or.inr hrec))]
  rw [List.filter_append, hX, List.filter_cons, if_pos (by simp [hmp]), hY]
  rfl

/-- C7: a pallet whose weight is out of tolerance is routed to the
terminal `manual` stage directly from the inbound stage: in the finished
run its dict entry is its initial entry with stage `manual`, the only
movement row bearing its id is the single `"Manual Packing"` row (no
`"Inbound OK"`, conveyor or rgv rows), and the warehouse — in particular
`occupied` — is exactly what the same run without that pallet produces, so
no slot is consumed by it.  (`n` is any fuel bound ≥ 1 for the driver
loop; pallet ids are unique per the data model.) -/
theorem out_of_tolerance_routed_manual (tol : ℚ) (L1 L2 : List AppPallet)
    (bad : AppPallet) (w₀ : AppWarehouse) (n : ℕ)
    (hbad : |bad.weight - 400| > tol)
    (hid : ∀ p ∈ L1 ++ L2, p.pallet_id ≠ bad.pallet_id) (hn : 1 ≤ n) :
    ((runSim tol n
        (initState (L1 ++ [bad] ++ L2) w₀)).pallet_positions.find?
        (fun e => e.1 == bad.pallet_id)) =
      some (bad.pallet_id, { initPos bad with stage := Stage.manual }) ∧
    ((runSim tol n (initState (L1 ++ [bad] ++ L2) w₀)).movements.filter
        (fun rec => rec.pallet_id == bad.pallet_id)) =
      [{ pallet_id := bad.pallet_id, rfid := bad.rfid,
         weight := bad.weight, stage := "Manual Packing",
         location := "" }] ∧
    (runSim tol n (initState (L1 ++ [bad] ++ L2) w₀)).warehouse =
      (runSim tol n (initState (L1 ++ L2) w₀)).warehouse := by
  obtain ⟨m, rfl⟩ : ∃ m, n = m + 1 := ⟨n - 1, by omega⟩
  rw [runSim_eq_iterate, runSim_eq_iterate, Function.iterate_succ_apply,
    Function.iterate_succ_apply]
  have hiter := erasesTo_iterate tol bad.pallet_id
    { initPos bad with stage := Stage.manual }
    { pallet_id := bad.pallet_id, rfid := bad.rfid, weight := bad.weight,
      stage := "Manual Packing", location := "" }
    rfl _ _ (erasesTo_init tol L1 L2 bad w₀ hbad hid) m
  obtain ⟨A, B, X, Y, hs, ht, hw, hsm, htm, hkeys, hrecs⟩ := hiter
  refine ⟨?_, ?_, ?_⟩
  · rw [hs]
    exact find?_key_middle _ _ A B
      (fun e he => hkeys e (List.mem_append.mpr (Or.inl he)))
  · rw [hsm]
    exact filter_single_pid bad.pallet_id
      { pallet_id := bad.pallet_id, rfid := bad.rfid,
        weight := bad.weight, stage := "Manual Packing", location := "" }
      rfl X Y hrecs
  · rw [hw]

/-- C7 witness: pallet `P1` of weight 450 under tolerance 25, run together
with an in-tolerance pallet `P2`, ends `manual` with exactly the one
`"Manual Packing"` row, and the warehouse equals that of the run with `P2`
alone. -/
theorem out_of_tolerance_routed_manual_witness :
    |(450 : ℚ) - 400| > 25 ∧
    (((runSim 25 7 (initState ([] ++ [⟨"P1", 450, "RFID-1"⟩] ++
          [⟨"P2", 400, "RFID-2"⟩]) (AppWarehouse.init 3 3 2
          25))).pallet_positions.find? (fun e => e.1 == "P1")) =
        some ("P1", { initPos ⟨"P1", 450, "RFID-1"⟩ with
          stage := Stage.manual }) ∧
      ((runSim 25 7 (initState ([] ++ [⟨"P1", 450, "RFID-1"⟩] ++
          [⟨"P2", 400, "RFID-2"⟩]) (AppWarehouse.init 3 3 2
          25))).movements.filter (fun rec => rec.pallet_id == "P1")) =
        [{ pallet_id := "P1", rfid := "RFID-1", weight := 450,
           stage := "Manual Packing", location := "" }] ∧
      (runSim 25 7 (initState ([] ++ [⟨"P1", 450, "RFID-1"⟩] ++
          [⟨"P2", 400, "RFID-2"⟩]) (AppWarehouse.init 3 3 2
          25))).warehouse =
        (runSim 25 7 (initState ([] ++ [⟨"P2", 400, "RFID-2"⟩])
          (AppWarehouse.init 3 3 2 25))).warehouse) :=
  ⟨by norm_num,
   out_of_tolerance_routed_manual 25 [] [⟨"P2", 400, "RFID-2"⟩]
     ⟨"P1", 450, "RFID-1"⟩ (AppWarehouse.init 3 3 2 25) 7 (by norm_num)
     (by decide) (by decide)⟩
